import Mathlib

/-
Shallow embedding of `src/main.py` of basos9/youtrack-issues-downloader.

Strings manipulated character-by-character by the Python code are modelled
as `List Char`; filesystem paths and file contents are Lean `String`s.
The filesystem is an explicit state (a set of directories plus an
association list of file paths to contents); HTTP traffic is an oracle
passed in as data (the list-issues response) and as a function from URLs
to responses (attachment downloads).
-/

set_option autoImplicit false

/-- The character set removed by `clean_folder_name`
(`invalid_chars = '<>:"/\\|?*'` in `main.py`). -/
def invalid_chars : List Char := ['<', '>', ':', '"', '/', '\\', '|', '?', '*']

/-- Python `name.replace(char, "")` for a single character: every occurrence
of `c` is deleted. -/
def removeChar (c : Char) (s : List Char) : List Char :=
  s.filter (fun x => x != c)

/-- The `for char in invalid_chars: name = name.replace(char, "")` loop of
`clean_folder_name`. -/
def removeInvalid (s : List Char) : List Char :=
  invalid_chars.foldl (fun acc c => removeChar c acc) s

/-- Python `name.replace(" ", space_replacement)`: each space character is
replaced by the (possibly multi-character) replacement string. -/
def replaceSpaces (repl : List Char) (s : List Char) : List Char :=
  s.flatMap (fun c => if c = ' ' then repl else [c])

/-- The Windows reserved device names checked by `clean_folder_name`. -/
def reserved_names : List (List Char) :=
  [['C','O','N'], ['P','R','N'], ['A','U','X'], ['N','U','L'],
   ['C','O','M','1'], ['C','O','M','2'], ['C','O','M','3'],
   ['C','O','M','4'], ['C','O','M','5'], ['C','O','M','6'],
   ['C','O','M','7'], ['C','O','M','8'], ['C','O','M','9'],
   ['L','P','T','1'], ['L','P','T','2'], ['L','P','T','3'],
   ['L','P','T','4'], ['L','P','T','5'], ['L','P','T','6'],
   ['L','P','T','7'], ['L','P','T','8'], ['L','P','T','9']]

/-- Python `name.upper()`, restricted to ASCII case mapping (the reserved
names compared against are pure ASCII). -/
def upperAscii (s : List Char) : List Char :=
  s.map Char.toUpper

/-- Python `name.startswith(".")` (`False` on the empty string). -/
def startsWithDot : List Char → Bool
  | '.' :: _ => true
  | _ => false

/-- The value of `name` in `clean_folder_name` after character removal and
space replacement, just before the reserved-name / leading-dot check. -/
def sanitized_core (name : List Char) (replace_space : Bool)
    (space_replacement : List Char) : List Char :=
  let n1 := removeInvalid name
  if replace_space then replaceSpaces space_replacement n1 else n1

/-- The condition `name.upper() in reserved_names or name.startswith(".")`
of `clean_folder_name`. -/
def needsUnderscore (n : List Char) : Bool :=
  reserved_names.contains (upperAscii n) || startsWithDot n

/-- `clean_folder_name(name, replace_space, space_replacement)` from
`main.py`: deletes the invalid characters, optionally replaces spaces,
and prefixes an underscore when the result is a reserved device name
(case-insensitively) or starts with a dot. -/
def clean_folder_name (name : List Char) (replace_space : Bool)
    (space_replacement : List Char) : List Char :=
  let n2 := sanitized_core name replace_space space_replacement
  if needsUnderscore n2 then '_' :: n2 else n2

/-- `clean_folder_name` at its Python default arguments
(`replace_space=True`, `space_replacement="_"`). -/
def cleanDefault (name : List Char) : List Char :=
  clean_folder_name name true ['_']

/-- Python `str.zfill(width)` for an unsigned decimal string: left-pad with
zeros up to `width` (no sign handling is needed, `numberInProject` is a
non-negative integer). -/
def zfill (width : Nat) (s : String) : String :=
  if s.length < width then String.mk (List.replicate (width - s.length) '0') ++ s
  else s

/-- The `ID_PAD_LENGTH = 3` configuration constant of `main.py`. -/
def ID_PAD_LENGTH : Nat := 3

/-- The `BASE_YOUTRACK_URL` constant of `main.py`. -/
def BASE_YOUTRACK_URL : String := "https://ferryhoppers.myjetbrains.com"

/-- A reaction record (`reactions(author(name),reaction)`). -/
structure Reaction where
  authorName : String
  reaction : String
deriving DecidableEq

/-- A comment record
(`comments(author(name),created,deleted,text,reactions(...))`).
`created` is an epoch-millisecond timestamp. -/
structure Comment where
  authorName : String
  created : Nat
  deleted : Bool
  text : String
  reactions : List Reaction
deriving DecidableEq

/-- An attachment record (`attachments(name,url)`); `url` is relative to
`BASE_YOUTRACK_URL`. -/
structure Attachment where
  name : String
  url : String
deriving DecidableEq

/-- The project reference of an issue (`project(id,shortName)`; only
`shortName` is used by the code). -/
structure Project where
  shortName : String
deriving DecidableEq

/-- An issue record as consumed by `get_issues`.  `description = none`
models the `description` key being absent from the JSON object, which is
the case `issue.get('description', 'No description')` defaults on;
`comments = []` likewise covers an absent `comments` key
(`issue.get("comments", [])`). -/
structure Issue where
  idReadable : String
  numberInProject : Nat
  summary : String
  created : Nat
  description : Option String
  comments : List Comment
  attachments : List Attachment
  project : Project
deriving DecidableEq

/-- The filesystem state: the set of existing directories and an
association list from file paths to file contents.  (Intermediate parent
directories made by `os.makedirs` are not tracked separately; no claim
observes them.) -/
structure FS where
  dirs : List String
  files : List (String × String)
deriving DecidableEq

/-- Whether path `p` exists as a regular file. -/
def fileExistsB (fs : FS) (p : String) : Bool :=
  fs.files.any (fun e => e.1 == p)

/-- The content stored at file path `p`, if any. -/
def fileLookup (fs : FS) (p : String) : Option String :=
  (fs.files.find? (fun e => e.1 == p)).map (fun e => e.2)

/-- `os.path.exists(p)`: true if `p` is an existing directory or file. -/
def pathExists (fs : FS) (p : String) : Bool :=
  fs.dirs.contains p || fileExistsB fs p

/-- `open(p, "w")` followed by writing `c`: creates or truncates the file
at `p`. -/
def writeFile (fs : FS) (p c : String) : FS :=
  { fs with files := (p, c) :: fs.files.filter (fun e => e.1 != p) }

/-- `os.makedirs(p, exist_ok=True)`: an existing directory is not an
error (and is not duplicated). -/
def makedirs (fs : FS) (p : String) : FS :=
  if fs.dirs.contains p then fs else { fs with dirs := p :: fs.dirs }

/-- The response of the single list-issues request: HTTP status, raw body
text, and the decoded JSON (`response.json()`). -/
structure FetchResponse where
  status_code : Nat
  text : String
  issues : List Issue

/-- The response of one attachment download request: HTTP status and the
concatenation of the streamed body chunks. -/
structure AttachResponse where
  status_code : Nat
  content : String

/-- Two-digit zero padding of a number below 100. -/
def pad2 (n : Nat) : String :=
  if n < 10 then "0" ++ toString n else toString n

/-- Four-digit zero padding of a year number. -/
def pad4 (n : Nat) : String :=
  if n < 10 then "000" ++ toString n
  else if n < 100 then "00" ++ toString n
  else if n < 1000 then "0" ++ toString n
  else toString n

/-- Proleptic-Gregorian civil date (year, month, day) of a day count since
the Unix epoch (1970-01-01), the conversion performed by
`datetime.fromtimestamp(..., tz=timezone.utc)`. -/
def civilFromDays (days : Nat) : Nat × Nat × Nat :=
  let z := days + 719468
  let era := z / 146097
  let doe := z % 146097
  let yoe := (doe - doe / 1460 + doe / 36524 - doe / 146096) / 365
  let y := yoe + era * 400
  let doy := doe - (365 * yoe + yoe / 4 - yoe / 100)
  let mp := (5 * doy + 2) / 153
  let d := doy - (153 * mp + 2) / 5 + 1
  let m := if mp < 10 then mp + 3 else mp - 9
  (if m ≤ 2 then y + 1 else y, m, d)

/-- `datetime.fromtimestamp(secs, tz=timezone.utc).isoformat(timespec="seconds")`
for a whole number of epoch seconds:
`YYYY-MM-DDTHH:MM:SS+00:00`. -/
def isoformatSecondsUtc (secs : Nat) : String :=
  let days := secs / 86400
  let sod := secs % 86400
  let ymd := civilFromDays days
  pad4 ymd.1 ++ "-" ++ pad2 ymd.2.1 ++ "-" ++ pad2 ymd.2.2 ++ "T" ++
    pad2 (sod / 3600) ++ ":" ++ pad2 (sod % 3600 / 60) ++ ":" ++
    pad2 (sod % 60) ++ "+00:00"

/-- The `comment_timestamp` computed by `get_issues`:
`datetime.fromtimestamp(comment["created"] / 1000, tz=timezone.utc).isoformat(timespec="seconds")`.
For epoch-millisecond values in `datetime`'s supported range the float
division and microsecond truncation amount to flooring to whole seconds. -/
def comment_timestamp (ms : Nat) : String :=
  isoformatSecondsUtc (ms / 1000)

/-- One `    {author}: {reaction}` line of the reactions block. -/
def renderReaction (r : Reaction) : String :=
  "    " ++ r.authorName ++ ": " ++ r.reaction ++ "\n"

/-- Python `str(bool)`. -/
def pyBool (b : Bool) : String :=
  if b then "True" else "False"

/-- The text written to `content.txt` for one comment (separator block,
section title, deletion flag, reactions block, body). -/
def renderComment (c : Comment) : String :=
  "\n\n---\n---\n" ++
  ("Comment by " ++ c.authorName ++ " at " ++ comment_timestamp c.created) ++ "\n" ++
  ("Deleted: " ++ pyBool c.deleted ++ "\n") ++
  "Reactions:\n" ++
  String.join (c.reactions.map renderReaction) ++
  ("\n" ++ c.text ++ "\n")

/-- The full content of `content.txt` for an issue: the concatenation of
every `f.write` performed inside the `with open(...)` block. -/
def renderContent (i : Issue) : String :=
  ("# " ++ i.idReadable ++ " - " ++ i.summary ++ "\n\n") ++
  (i.description.getD "No description" ++ "\n\n") ++
  "\n# Comments" ++
  String.join (i.comments.map renderComment)

/-- `os.path.join(a, b)` on POSIX (no component used by the code is
absolute or empty). -/
def pathJoin (a b : String) : String :=
  a ++ "/" ++ b

/-- The per-issue target path built by `get_issues`:
`os.path.join("exports", f"{shortName}-{str(n).zfill(ID_PAD_LENGTH)}-{clean_folder_name(summary)}")`. -/
def issue_target_path (i : Issue) : String :=
  pathJoin "exports"
    (i.project.shortName ++ "-" ++
      zfill ID_PAD_LENGTH (toString i.numberInProject) ++ "-" ++
      String.mk (cleanDefault i.summary.data))

/-- `download_attachments(attachments, issue_id, headers)`: for each
attachment, fetch `BASE_YOUTRACK_URL + url`; write the body to
`issue_id/name` only when the status is 200, silently skip otherwise.
`att` is the network oracle mapping URLs to responses. -/
def download_attachments (att : String → AttachResponse)
    (attachments : List Attachment) (issue_id : String) (fs : FS) : FS :=
  attachments.foldl
    (fun fs a =>
      let resp := att (BASE_YOUTRACK_URL ++ a.url)
      if resp.status_code = 200 then
        writeFile fs (pathJoin issue_id a.name) resp.content
      else fs)
    fs

/-- The observable state threaded through the `for issue in issues` loop:
the filesystem and the console lines printed so far. -/
structure RunState where
  fs : FS
  output : List String
deriving DecidableEq

/-- The body of the `for issue in issues` loop of `get_issues`: skip when
the target path exists and no full refresh is forced; otherwise create the
directory, write `content.txt`, and download the attachments (guarded on
the attachment list being non-empty, as in the code). -/
def processIssue (att : String → AttachResponse) (full_refresh : Bool)
    (st : RunState) (issue : Issue) : RunState :=
  let p := issue_target_path issue
  if !full_refresh && pathExists st.fs p then
    { st with output := st.output ++ ["Skipping " ++ p ++ " as it already exists."] }
  else
    let out := st.output ++ ["Processing " ++ p]
    let fs1 := makedirs st.fs p
    let fs2 := writeFile fs1 (pathJoin p "content.txt") (renderContent issue)
    let fs3 := if issue.attachments.isEmpty then fs2
               else download_attachments att issue.attachments p fs2
    ⟨fs3, out⟩

/-- `get_issues(permanent_token, project_id, full_refresh)` run against a
list-issues response `fetch` and an attachment oracle `att`, starting from
filesystem `fs`: on a non-200 status it prints the body and returns with
the filesystem untouched; otherwise it folds the loop body over the
decoded issues. -/
def get_issues (fetch : FetchResponse) (att : String → AttachResponse)
    (full_refresh : Bool) (fs : FS) : RunState :=
  if fetch.status_code ≠ 200 then
    ⟨fs, ["Failed to fetch issues: " ++ fetch.text]⟩
  else
    fetch.issues.foldl (processIssue att full_refresh) ⟨fs, []⟩

/-- Empty filesystem. -/
def fs0 : FS := { dirs := [], files := [] }

/-- An attachment oracle on which every download fails. -/
def attNone : String → AttachResponse := fun _ => { status_code := 404, content := "" }

/-- A failed list-issues response (HTTP 403). -/
def fetch403 : FetchResponse := { status_code := 403, text := "Forbidden", issues := [] }

/-- The issue of the spec's end-to-end naming scenario: project shortname
`DR`, sequence number 7, summary `Fix: bug/fix`. -/
def issueA : Issue :=
  { idReadable := "DR-7", numberInProject := 7, summary := "Fix: bug/fix",
    created := 0, description := none, comments := [], attachments := [],
    project := { shortName := "DR" } }

/-- A run state in which `issueA`'s target folder already exists. -/
def stA : RunState := { fs := { dirs := [issue_target_path issueA], files := [] }, output := [] }

/-- A successful list-issues response carrying `issueA`. -/
def fetchOK : FetchResponse := { status_code := 200, text := "", issues := [issueA] }

/-- An attachment whose download will fail in `attMix`. -/
def attFail : Attachment := { name := "a.txt", url := "/f" }

/-- An attachment whose download will succeed in `attMix`. -/
def attOK : Attachment := { name := "b.txt", url := "/g" }

/-- An attachment oracle failing exactly on `attFail`'s URL. -/
def attMix : String → AttachResponse := fun u =>
  if u = BASE_YOUTRACK_URL ++ "/f" then { status_code := 404, content := "" }
  else { status_code := 200, content := "data" }

/-- A filesystem already holding an issue folder and its content file. -/
def fsC : FS :=
  { dirs := ["exports/X"], files := [("exports/X/content.txt", "c")] }

/-- An issue with a description, a comment and an attachment, whose folder
already exists in `stB`. -/
def issueB : Issue :=
  { idReadable := "DR-8", numberInProject := 8, summary := "Add thing",
    created := 0, description := some "does things",
    comments := [], attachments := [attOK],
    project := { shortName := "DR" } }

/-- A run state in which `issueB`'s target folder already exists. -/
def stB : RunState := { fs := { dirs := [issue_target_path issueB], files := [] }, output := [] }

theorem mem_removeChar {c x : Char} {s : List Char} :
    x ∈ removeChar c s ↔ x ∈ s ∧ x ≠ c := by
  simp [removeChar, List.mem_filter]

theorem foldl_removeChar_mem {cs s : List Char} {x : Char}
    (hx : x ∈ List.foldl (fun acc c => removeChar c acc) s cs) :
    x ∈ s ∧ x ∉ cs := by
  induction cs generalizing s with
  | nil => simpa using hx
  | cons c cs ih =>
    rw [List.foldl_cons] at hx
    obtain ⟨h1, h2⟩ := ih hx
    rw [mem_removeChar] at h1
    refine ⟨h1.1, ?_⟩
    simp only [List.mem_cons, not_or]
    exact ⟨h1.2, h2⟩

theorem mem_removeInvalid {s : List Char} {x : Char} (hx : x ∈ removeInvalid s) :
    x ∈ s ∧ x ∉ invalid_chars :=
  foldl_removeChar_mem hx

theorem foldl_removeChar_eq_self {cs s : List Char}
    (h : ∀ x ∈ s, x ∉ cs) :
    List.foldl (fun acc c => removeChar c acc) s cs = s := by
  induction cs generalizing s with
  | nil => rfl
  | cons c cs ih =>
    have h1 : removeChar c s = s := by
      refine List.filter_eq_self.mpr (fun a ha => ?_)
      have hne : a ≠ c := by
        have := h a ha
        simp only [List.mem_cons, not_or] at this
        exact this.1
      simp [hne]
    rw [List.foldl_cons, h1]
    refine ih (fun x hx hmem => h x hx (List.mem_cons_of_mem _ hmem))

theorem removeInvalid_eq_self {s : List Char} (h : ∀ x ∈ s, x ∉ invalid_chars) :
    removeInvalid s = s :=
  foldl_removeChar_eq_self h

theorem foldl_removeChar_eq_nil {cs s : List Char}
    (h : ∀ x ∈ s, x ∈ cs) :
    List.foldl (fun acc c => removeChar c acc) s cs = [] := by
  induction cs generalizing s with
  | nil =>
    cases s with
    | nil => rfl
    | cons a s => exact absurd (h a (by simp)) (by simp)
  | cons c cs ih =>
    rw [List.foldl_cons]
    refine ih (fun x hx => ?_)
    rw [mem_removeChar] at hx
    have hmem := h x hx.1
    rw [List.mem_cons] at hmem
    rcases hmem with h1 | h1
    · exact absurd h1 hx.2
    · exact h1

theorem removeInvalid_eq_nil {s : List Char} (h : ∀ x ∈ s, x ∈ invalid_chars) :
    removeInvalid s = [] :=
  foldl_removeChar_eq_nil h

theorem mem_replaceSpaces {repl s : List Char} {x : Char}
    (hx : x ∈ replaceSpaces repl s) :
    x ∈ repl ∨ (x ∈ s ∧ x ≠ ' ') := by
  rw [replaceSpaces, List.mem_flatMap] at hx
  obtain ⟨a, ha, hxa⟩ := hx
  by_cases hsp : a = ' '
  · left; simpa [hsp] using hxa
  · right
    rw [if_neg hsp, List.mem_singleton] at hxa
    subst hxa
    exact ⟨ha, hsp⟩

theorem replaceSpaces_eq_self {repl s : List Char} (h : ∀ x ∈ s, x ≠ ' ') :
    replaceSpaces repl s = s := by
  induction s with
  | nil => rfl
  | cons a s ih =>
    have ha : a ≠ ' ' := h a (by simp)
    have ih2 := ih (fun x hx => h x (List.mem_cons_of_mem _ hx))
    simp only [replaceSpaces, List.flatMap_cons] at ih2 ⊢
    rw [if_neg ha, ih2, List.singleton_append]

theorem mem_sanitized_core_default {s : List Char} {x : Char}
    (hx : x ∈ sanitized_core s true ['_']) :
    x ∉ invalid_chars ∧ x ≠ ' ' := by
  simp only [sanitized_core, if_pos] at hx
  rcases mem_replaceSpaces hx with h | h
  · rw [List.mem_singleton] at h
    subst h
    exact ⟨by decide, by decide⟩
  · exact ⟨(mem_removeInvalid h.1).2, h.2⟩

theorem cleanDefault_eq_ite (s : List Char) :
    cleanDefault s =
      if needsUnderscore (sanitized_core s true ['_']) then
        '_' :: sanitized_core s true ['_']
      else sanitized_core s true ['_'] := rfl

theorem mem_cleanDefault {s : List Char} {x : Char} (hx : x ∈ cleanDefault s) :
    x ∉ invalid_chars ∧ x ≠ ' ' := by
  rw [cleanDefault_eq_ite] at hx
  split at hx
  · rw [List.mem_cons] at hx
    rcases hx with h | h
    · subst h
      exact ⟨by decide, by decide⟩
    · exact mem_sanitized_core_default h
  · exact mem_sanitized_core_default hx

theorem underscore_cons_not_reserved (l : List Char) :
    ('_' :: l) ∉ reserved_names := by
  intro h
  simp [reserved_names] at h

theorem upperAscii_underscore_cons (l : List Char) :
    upperAscii ('_' :: l) = '_' :: upperAscii l := by
  simp [upperAscii]

theorem upperAscii_cleanDefault_not_reserved (s : List Char) :
    upperAscii (cleanDefault s) ∉ reserved_names := by
  rw [cleanDefault_eq_ite]
  split
  case isTrue h =>
    rw [upperAscii_underscore_cons]
    exact underscore_cons_not_reserved _
  case isFalse h =>
    intro hmem
    apply h
    unfold needsUnderscore
    simp [hmem]

theorem startsWithDot_cleanDefault (s : List Char) :
    startsWithDot (cleanDefault s) = false := by
  rw [cleanDefault_eq_ite]
  split
  case isTrue h => rfl
  case isFalse h =>
    unfold needsUnderscore at h
    simp only [Bool.or_eq_true, not_or, Bool.not_eq_true] at h
    exact h.2

/-- C3: the default-argument sanitizer output contains none of the invalid
characters, is not case-insensitively a Windows reserved device name, does
not begin with a dot, and a single underscore is prefixed exactly when the
post-removal, post-space-replacement value is reserved or dot-leading. -/
theorem C3_cleanDefault_safe (s : List Char) :
    (∀ x ∈ cleanDefault s, x ∉ invalid_chars) ∧
    upperAscii (cleanDefault s) ∉ reserved_names ∧
    startsWithDot (cleanDefault s) = false ∧
    (needsUnderscore (sanitized_core s true ['_']) = true →
      cleanDefault s = '_' :: sanitized_core s true ['_']) := by
  refine ⟨fun x hx => (mem_cleanDefault hx).1,
          upperAscii_cleanDefault_not_reserved s,
          startsWithDot_cleanDefault s,
          fun h => ?_⟩
  rw [cleanDefault_eq_ite, if_pos h]

/-- Witness for C3 at the concrete summary `CON` (reserved name). -/
theorem C3_witness :
    'C' ∉ invalid_chars ∧
    upperAscii (cleanDefault ['C', 'O', 'N']) ∉ reserved_names ∧
    startsWithDot (cleanDefault ['C', 'O', 'N']) = false ∧
    cleanDefault ['C', 'O', 'N'] = '_' :: sanitized_core ['C', 'O', 'N'] true ['_'] :=
  ⟨(C3_cleanDefault_safe ['C', 'O', 'N']).1 'C' (by decide),
   (C3_cleanDefault_safe ['C', 'O', 'N']).2.1,
   (C3_cleanDefault_safe ['C', 'O', 'N']).2.2.1,
   (C3_cleanDefault_safe ['C', 'O', 'N']).2.2.2 (by decide)⟩

/-- C9: `clean_folder_name` at its default arguments is idempotent on every
input, clean or not. -/
theorem C9_cleanDefault_idempotent (s : List Char) :
    cleanDefault (cleanDefault s) = cleanDefault s := by
  have h1 : removeInvalid (cleanDefault s) = cleanDefault s :=
    removeInvalid_eq_self (fun x hx => (mem_cleanDefault hx).1)
  have h2 : replaceSpaces ['_'] (cleanDefault s) = cleanDefault s :=
    replaceSpaces_eq_self (fun x hx => (mem_cleanDefault hx).2)
  have hcore : sanitized_core (cleanDefault s) true ['_'] = cleanDefault s := by
    simp only [sanitized_core, if_pos, h1, h2]
  have hres : needsUnderscore (cleanDefault s) = false := by
    unfold needsUnderscore
    simp [upperAscii_cleanDefault_not_reserved s, startsWithDot_cleanDefault s]
  show clean_folder_name (cleanDefault s) true ['_'] = cleanDefault s
  unfold clean_folder_name
  simp only [hcore, hres]
  rfl

theorem cleanDefault_all_invalid {s : List Char} (h : ∀ x ∈ s, x ∈ invalid_chars) :
    cleanDefault s = [] := by
  have h1 : removeInvalid s = [] := removeInvalid_eq_nil h
  have hcore : sanitized_core s true ['_'] = [] := by
    simp only [sanitized_core, if_pos, h1]
    rfl
  rw [cleanDefault_eq_ite, hcore]
  rfl

theorem getLast?_append_hyphen_empty (t : String) :
    (t ++ "-" ++ String.mk []).data.getLast? = some '-' := by
  rw [String.data_append, String.data_append]
  have hd : ("-" : String).data = ['-'] := rfl
  have he : (String.mk ([] : List Char)).data = [] := rfl
  rw [hd, he, List.append_nil, List.getLast?_append]
  rfl

theorem getLast?_data_append (s t : String) (h : t.data.getLast? = some '-') :
    (s ++ t).data.getLast? = some '-' := by
  rw [String.data_append, List.getLast?_append, h]
  rfl

/-- C10: a summary made only of removed characters (the empty string
included) sanitizes to the empty string — the underscore rule does not
fire on an empty result — so any two such summaries yield the same target
folder name, which ends in a trailing hyphen. -/
theorem C10_all_invalid_collapse :
    (∀ s : List Char, (∀ x ∈ s, x ∈ invalid_chars) → cleanDefault s = []) ∧
    (∀ (i : Issue) (s1 s2 : String),
      (∀ x ∈ s1.data, x ∈ invalid_chars) →
      (∀ x ∈ s2.data, x ∈ invalid_chars) →
      issue_target_path { i with summary := s1 } =
        issue_target_path { i with summary := s2 } ∧
      (issue_target_path { i with summary := s1 }).data.getLast? = some '-') := by
  refine ⟨fun s h => cleanDefault_all_invalid h, fun i s1 s2 h1 h2 => ?_⟩
  have e1 : cleanDefault s1.data = [] := cleanDefault_all_invalid h1
  have e2 : cleanDefault s2.data = [] := cleanDefault_all_invalid h2
  constructor
  · simp [issue_target_path, e1, e2]
  · simp only [issue_target_path, e1]
    exact getLast?_data_append _ _ (getLast?_append_hyphen_empty _)

/-- Witness for C10: the summaries `<>` and `*?*` collide on a target
folder name ending in a hyphen. -/
theorem C10_witness :
    issue_target_path { issueA with summary := "<>" } =
      issue_target_path { issueA with summary := "*?*" } ∧
    (issue_target_path { issueA with summary := "<>" }).data.getLast? = some '-' :=
  ⟨(C10_all_invalid_collapse.2 issueA "<>" "*?*" (by decide) (by decide)).1,
   (C10_all_invalid_collapse.2 issueA "<>" "*?*" (by decide) (by decide)).2⟩

/-- C4: the per-issue target path is
`exports/{shortName}-{zfill ID_PAD_LENGTH n}-{clean_folder_name summary}`;
at shortname `DR`, sequence number 7, pad width 3 and summary
`Fix: bug/fix` it is `exports/DR-007-Fix_bugfix`. -/
theorem C4_target_path :
    (∀ i : Issue,
      issue_target_path i =
        pathJoin "exports"
          (i.project.shortName ++ "-" ++
            zfill ID_PAD_LENGTH (toString i.numberInProject) ++ "-" ++
            String.mk (clean_folder_name i.summary.data true ['_']))) ∧
    issue_target_path issueA = "exports/DR-007-Fix_bugfix" :=
  ⟨fun i => rfl, by decide⟩

/-- C2: a non-200 list-issues response makes `get_issues` print the body
and return at once, with the filesystem untouched. -/
theorem C2_fetch_failure (fetch : FetchResponse) (att : String → AttachResponse)
    (full_refresh : Bool) (fs : FS) (h : fetch.status_code ≠ 200) :
    get_issues fetch att full_refresh fs =
      ⟨fs, ["Failed to fetch issues: " ++ fetch.text]⟩ := by
  unfold get_issues
  rw [if_pos h]

/-- Witness for C2 at a concrete HTTP 403 response. -/
theorem C2_witness :
    get_issues fetch403 attNone false fs0 =
      ⟨fs0, ["Failed to fetch issues: Forbidden"]⟩ :=
  C2_fetch_failure fetch403 attNone false fs0 (by decide)

theorem download_attachments_nil (att : String → AttachResponse)
    (issue_id : String) (fs : FS) :
    download_attachments att [] issue_id fs = fs := rfl

theorem download_attachments_cons (att : String → AttachResponse)
    (a : Attachment) (l : List Attachment) (issue_id : String) (fs : FS) :
    download_attachments att (a :: l) issue_id fs =
      download_attachments att l issue_id
        (if (att (BASE_YOUTRACK_URL ++ a.url)).status_code = 200 then
          writeFile fs (pathJoin issue_id a.name)
            (att (BASE_YOUTRACK_URL ++ a.url)).content
        else fs) := rfl

theorem download_attachments_append (att : String → AttachResponse)
    (l1 l2 : List Attachment) (issue_id : String) (fs : FS) :
    download_attachments att (l1 ++ l2) issue_id fs =
      download_attachments att l2 issue_id
        (download_attachments att l1 issue_id fs) := by
  unfold download_attachments
  exact List.foldl_append _ _ _ _

theorem dirs_writeFile (fs : FS) (p c : String) :
    (writeFile fs p c).dirs = fs.dirs := rfl

theorem fileExistsB_writeFile_self (fs : FS) (p c : String) :
    fileExistsB (writeFile fs p c) p = true := by
  simp [fileExistsB, writeFile]

theorem fileExistsB_writeFile_mono {fs : FS} {q : String} (p c : String)
    (h : fileExistsB fs q = true) :
    fileExistsB (writeFile fs p c) q = true := by
  by_cases hq : q = p
  · subst hq
    exact fileExistsB_writeFile_self fs q c
  · simp only [fileExistsB, writeFile] at h ⊢
    simp only [List.any_cons, List.any_filter, Bool.or_eq_true]
    right
    rw [List.any_eq_true] at h ⊢
    obtain ⟨e, he, hq2⟩ := h
    have he1 : e.1 = q := by simpa using hq2
    refine ⟨e, he, ?_⟩
    simp [he1, hq]

theorem dirs_download_attachments (att : String → AttachResponse)
    (l : List Attachment) (issue_id : String) (fs : FS) :
    (download_attachments att l issue_id fs).dirs = fs.dirs := by
  induction l generalizing fs with
  | nil => rfl
  | cons a l ih =>
    rw [download_attachments_cons, ih]
    by_cases h : (att (BASE_YOUTRACK_URL ++ a.url)).status_code = 200
    · rw [if_pos h]
      rfl
    · rw [if_neg h]

theorem fileExistsB_download_attachments_mono (att : String → AttachResponse)
    (l : List Attachment) (issue_id : String) {fs : FS} {q : String}
    (h : fileExistsB fs q = true) :
    fileExistsB (download_attachments att l issue_id fs) q = true := by
  induction l generalizing fs with
  | nil => exact h
  | cons a l ih =>
    rw [download_attachments_cons]
    refine ih ?_
    by_cases hs : (att (BASE_YOUTRACK_URL ++ a.url)).status_code = 200
    · rw [if_pos hs]
      exact fileExistsB_writeFile_mono _ _ h
    · rw [if_neg hs]
      exact h

/-- C5: a failed attachment fetch writes no file, raises nothing and does
not stop the loop (removing it from the list changes nothing), and
`download_attachments` never removes a directory or an existing file such
as the issue folder's `content.txt`. -/
theorem C5_attachment_failure :
    (∀ (att : String → AttachResponse) (issue_id : String)
        (l1 l2 : List Attachment) (a : Attachment) (fs : FS),
      (att (BASE_YOUTRACK_URL ++ a.url)).status_code ≠ 200 →
      download_attachments att (l1 ++ a :: l2) issue_id fs =
        download_attachments att (l1 ++ l2) issue_id fs) ∧
    (∀ (att : String → AttachResponse) (issue_id : String)
        (l : List Attachment) (fs : FS),
      (download_attachments att l issue_id fs).dirs = fs.dirs ∧
      ∀ p, fileExistsB fs p = true →
        fileExistsB (download_attachments att l issue_id fs) p = true) := by
  constructor
  · intro att issue_id l1 l2 a fs h
    rw [download_attachments_append, download_attachments_append,
        download_attachments_cons, if_neg h]
  · intro att issue_id l fs
    exact ⟨dirs_download_attachments att l issue_id fs,
           fun p hp => fileExistsB_download_attachments_mono att l issue_id hp⟩

/-- Witness for C5: with `attFail` returning 404, the run equals the run
without it, the sibling `attOK` notwithstanding, and directories and the
pre-existing content file survive. -/
theorem C5_witness :
    download_attachments attMix [attFail, attOK] "exports/X" fsC =
      download_attachments attMix [attOK] "exports/X" fsC ∧
    (download_attachments attMix [attFail, attOK] "exports/X" fsC).dirs = fsC.dirs ∧
    fileExistsB (download_attachments attMix [attFail, attOK] "exports/X" fsC)
      "exports/X/content.txt" = true :=
  ⟨C5_attachment_failure.1 attMix "exports/X" [] [attOK] attFail fsC (by decide),
   (C5_attachment_failure.2 attMix "exports/X" [attFail, attOK] fsC).1,
   (C5_attachment_failure.2 attMix "exports/X" [attFail, attOK] fsC).2
     "exports/X/content.txt" (by decide)⟩

theorem processIssue_skip (att : String → AttachResponse) (full_refresh : Bool)
    (st : RunState) (i : Issue)
    (hc : (!full_refresh && pathExists st.fs (issue_target_path i)) = true) :
    processIssue att full_refresh st i =
      { st with output := st.output ++
          ["Skipping " ++ issue_target_path i ++ " as it already exists."] } := by
  unfold processIssue
  rw [if_pos hc]

theorem processIssue_not_skip (att : String → AttachResponse) (full_refresh : Bool)
    (st : RunState) (i : Issue)
    (hc : (!full_refresh && pathExists st.fs (issue_target_path i)) = false) :
    processIssue att full_refresh st i =
      ⟨(if i.attachments.isEmpty then
          writeFile (makedirs st.fs (issue_target_path i))
            (pathJoin (issue_target_path i) "content.txt") (renderContent i)
        else
          download_attachments att i.attachments (issue_target_path i)
            (writeFile (makedirs st.fs (issue_target_path i))
              (pathJoin (issue_target_path i) "content.txt") (renderContent i))),
       st.output ++ ["Processing " ++ issue_target_path i]⟩ := by
  unfold processIssue
  rw [if_neg (by simp [hc])]

theorem dirs_makedirs_subset {fs : FS} {q : String} (p : String)
    (h : q ∈ fs.dirs) : q ∈ (makedirs fs p).dirs := by
  unfold makedirs
  split
  · exact h
  · exact List.mem_cons_of_mem _ h

theorem pathExists_makedirs_mono {fs : FS} {q : String} (p : String)
    (h : pathExists fs q = true) : pathExists (makedirs fs p) q = true := by
  simp only [pathExists, Bool.or_eq_true] at h ⊢
  rcases h with h | h
  · left
    have hq : q ∈ fs.dirs := by simpa using h
    simpa using dirs_makedirs_subset p hq
  · right
    unfold makedirs
    split
    · exact h
    · exact h

theorem pathExists_makedirs_self (fs : FS) (p : String) :
    pathExists (makedirs fs p) p = true := by
  simp only [pathExists, Bool.or_eq_true]
  left
  unfold makedirs
  split
  case isTrue h => simpa using h
  case isFalse h => simp

theorem pathExists_writeFile_mono {fs : FS} {q : String} (p c : String)
    (h : pathExists fs q = true) : pathExists (writeFile fs p c) q = true := by
  simp only [pathExists, Bool.or_eq_true] at h ⊢
  rcases h with h | h
  · left
    exact h
  · right
    exact fileExistsB_writeFile_mono p c h

theorem pathExists_download_attachments_mono (att : String → AttachResponse)
    (l : List Attachment) (issue_id : String) {fs : FS} {q : String}
    (h : pathExists fs q = true) :
    pathExists (download_attachments att l issue_id fs) q = true := by
  simp only [pathExists, Bool.or_eq_true] at h ⊢
  rcases h with h | h
  · left
    rw [dirs_download_attachments]
    exact h
  · right
    exact fileExistsB_download_attachments_mono att l issue_id h

theorem pathExists_processIssue_mono (att : String → AttachResponse)
    (full_refresh : Bool) (st : RunState) (i : Issue) {q : String}
    (h : pathExists st.fs q = true) :
    pathExists (processIssue att full_refresh st i).fs q = true := by
  by_cases hc : (!full_refresh && pathExists st.fs (issue_target_path i)) = true
  · rw [processIssue_skip att full_refresh st i hc]
    exact h
  · rw [processIssue_not_skip att full_refresh st i (by simpa using hc)]
    by_cases he : i.attachments.isEmpty
    · simp only [he, if_pos]
      exact pathExists_writeFile_mono _ _ (pathExists_makedirs_mono _ h)
    · simp only [he, if_neg, Bool.false_eq_true, reduceIte]
      exact pathExists_download_attachments_mono _ _ _
        (pathExists_writeFile_mono _ _ (pathExists_makedirs_mono _ h))

theorem pathExists_processIssue_self (att : String → AttachResponse)
    (full_refresh : Bool) (st : RunState) (i : Issue) :
    pathExists (processIssue att full_refresh st i).fs (issue_target_path i) = true := by
  by_cases hc : (!full_refresh && pathExists st.fs (issue_target_path i)) = true
  · rw [processIssue_skip att full_refresh st i hc]
    exact (Bool.and_eq_true _ _ |>.mp hc).2
  · rw [processIssue_not_skip att full_refresh st i (by simpa using hc)]
    by_cases he : i.attachments.isEmpty
    · simp only [he, if_pos]
      exact pathExists_writeFile_mono _ _ (pathExists_makedirs_self _ _)
    · simp only [he, if_neg, Bool.false_eq_true, reduceIte]
      exact pathExists_download_attachments_mono _ _ _
        (pathExists_writeFile_mono _ _ (pathExists_makedirs_self _ _))

theorem pathExists_foldl_mono (att : String → AttachResponse) (full_refresh : Bool)
    (l : List Issue) (st : RunState) {q : String}
    (h : pathExists st.fs q = true) :
    pathExists (List.foldl (processIssue att full_refresh) st l).fs q = true := by
  induction l generalizing st with
  | nil => exact h
  | cons i l ih =>
    rw [List.foldl_cons]
    exact ih _ (pathExists_processIssue_mono att full_refresh st i h)

theorem pathExists_foldl_self (att : String → AttachResponse) (full_refresh : Bool)
    (l : List Issue) (st : RunState) :
    ∀ i ∈ l,
      pathExists (List.foldl (processIssue att full_refresh) st l).fs
        (issue_target_path i) = true := by
  induction l generalizing st with
  | nil =>
    intro i hi
    cases hi
  | cons j l ih =>
    intro i hi
    rw [List.foldl_cons]
    rcases List.mem_cons.mp hi with h | h
    · subst h
      exact pathExists_foldl_mono att full_refresh l _
        (pathExists_processIssue_self att full_refresh st i)
    · exact ih _ i h

theorem foldl_all_skip (att : String → AttachResponse) (l : List Issue)
    (st : RunState)
    (h : ∀ i ∈ l, pathExists st.fs (issue_target_path i) = true) :
    List.foldl (processIssue att false) st l =
      ⟨st.fs, st.output ++ l.map (fun i =>
        "Skipping " ++ issue_target_path i ++ " as it already exists.")⟩ := by
  induction l generalizing st with
  | nil => simp
  | cons i l ih =>
    rw [List.foldl_cons,
        processIssue_skip att false st i (by simp [h i (by simp)])]
    rw [ih { st with output := st.output ++
          ["Skipping " ++ issue_target_path i ++ " as it already exists."] }
        (fun j hj => h j (List.mem_cons_of_mem _ hj))]
    simp

/-- C1: with `full_refresh=False`, an issue whose target folder already
exists is skipped whole — the state is unchanged apart from the printed
skip line — and a second `get_issues` run over identical remote data
(status 200) leaves the filesystem of the first run untouched and prints
one skip line per issue. -/
theorem C1_skip_and_second_run :
    (∀ (att : String → AttachResponse) (st : RunState) (i : Issue),
      issue_target_path i ∈ st.fs.dirs →
      processIssue att false st i =
        { st with output := st.output ++
            ["Skipping " ++ issue_target_path i ++ " as it already exists."] }) ∧
    (∀ (fetch : FetchResponse) (att : String → AttachResponse)
        (full_refresh : Bool) (fs : FS),
      fetch.status_code = 200 →
      get_issues fetch att false (get_issues fetch att full_refresh fs).fs =
        ⟨(get_issues fetch att full_refresh fs).fs,
         fetch.issues.map (fun i =>
           "Skipping " ++ issue_target_path i ++ " as it already exists.")⟩) := by
  constructor
  · intro att st i hdir
    have hpe : pathExists st.fs (issue_target_path i) = true := by
      unfold pathExists
      rw [Bool.or_eq_true]
      left
      simpa using hdir
    exact processIssue_skip att false st i (by simp [hpe])
  · intro fetch att full_refresh fs h200
    have hrun1 : get_issues fetch att full_refresh fs =
        List.foldl (processIssue att full_refresh) ⟨fs, []⟩ fetch.issues := by
      unfold get_issues
      rw [if_neg (fun hne => hne h200)]
    have hall : ∀ i ∈ fetch.issues,
        pathExists (get_issues fetch att full_refresh fs).fs
          (issue_target_path i) = true := by
      rw [hrun1]
      exact pathExists_foldl_self att full_refresh fetch.issues ⟨fs, []⟩
    conv_lhs => rw [get_issues]
    rw [if_neg (fun hne => hne h200)]
    exact foldl_all_skip att fetch.issues
      ⟨(get_issues fetch att full_refresh fs).fs, []⟩ hall

/-- Witness for C1: a pre-existing `issueA` folder is skipped, and a second
run after a first run over `fetchOK` changes nothing and prints only skip
lines. -/
theorem C1_witness :
    (processIssue attNone false stA issueA =
      { stA with output := stA.output ++
          ["Skipping " ++ issue_target_path issueA ++ " as it already exists."] }) ∧
    (get_issues fetchOK attNone false (get_issues fetchOK attNone false fs0).fs =
      ⟨(get_issues fetchOK attNone false fs0).fs,
       fetchOK.issues.map (fun i =>
         "Skipping " ++ issue_target_path i ++ " as it already exists.")⟩) :=
  ⟨C1_skip_and_second_run.1 attNone stA issueA (by decide),
   C1_skip_and_second_run.2 fetchOK attNone false fs0 rfl⟩

theorem fileLookup_writeFile_self (fs : FS) (p c : String) :
    fileLookup (writeFile fs p c) p = some c := by
  simp [fileLookup, writeFile, List.find?_cons]

theorem find?_filter_of_imp {α : Type} (f g : α → Bool) (l : List α)
    (h : ∀ x ∈ l, g x = true → f x = true) :
    List.find? g (l.filter f) = List.find? g l := by
  induction l with
  | nil => rfl
  | cons e l ih =>
    have ih2 := ih (fun x hx => h x (List.mem_cons_of_mem _ hx))
    by_cases hf : f e = true
    · rw [List.filter_cons_of_pos hf]
      by_cases hg : g e = true
      · rw [List.find?_cons_of_pos _ hg, List.find?_cons_of_pos _ hg]
      · rw [List.find?_cons_of_neg _ hg, List.find?_cons_of_neg _ hg, ih2]
    · have hg : ¬(g e = true) := fun hg => hf (h e (by simp) hg)
      rw [List.filter_cons_of_neg hf, List.find?_cons_of_neg _ hg, ih2]

theorem find?_filter_ne {p q : String} (h : q ≠ p) (l : List (String × String)) :
    List.find? (fun e => e.1 == q) (l.filter (fun e => e.1 != p)) =
      List.find? (fun e => e.1 == q) l := by
  refine find?_filter_of_imp _ _ l (fun x hx hq => ?_)
  have hxq : x.1 = q := by simpa using hq
  simp [hxq, h]

theorem fileLookup_writeFile_other {q p : String} (h : q ≠ p) (fs : FS) (c : String) :
    fileLookup (writeFile fs p c) q = fileLookup fs q := by
  unfold fileLookup writeFile
  rw [List.find?_cons]
  have hhead : (((p, c) : String × String).1 == q) = false := by
    simp [Ne.symm h]
  rw [hhead, find?_filter_ne h]

theorem pathJoin_right_injective {a x y : String} (h : pathJoin a x = pathJoin a y) :
    x = y := by
  unfold pathJoin at h
  have hd := congrArg String.data h
  rw [String.data_append, String.data_append] at hd
  exact String.ext (List.append_cancel_left hd)

theorem fileLookup_download_attachments_other (att : String → AttachResponse)
    (l : List Attachment) (issue_id : String) {q : String} (fs : FS)
    (h : ∀ a ∈ l, pathJoin issue_id a.name ≠ q) :
    fileLookup (download_attachments att l issue_id fs) q = fileLookup fs q := by
  induction l generalizing fs with
  | nil => rfl
  | cons a l ih =>
    rw [download_attachments_cons,
        ih _ (fun b hb => h b (List.mem_cons_of_mem _ hb))]
    by_cases hs : (att (BASE_YOUTRACK_URL ++ a.url)).status_code = 200
    · rw [if_pos hs]
      exact fileLookup_writeFile_other (Ne.symm (h a (by simp))) fs _
    · rw [if_neg hs]

theorem makedirs_of_mem {fs : FS} {p : String} (h : p ∈ fs.dirs) :
    makedirs fs p = fs := by
  unfold makedirs
  rw [if_pos (by simpa using h)]

/-- C7: with `full_refresh=True`, an existing target folder is not
skipped: a processing line is printed, the directory set is unchanged
(`os.makedirs(..., exist_ok=True)` is idempotent), and `content.txt`
under the target path holds the freshly rendered content.  (No attachment
is named `content.txt`, else its download would overwrite the file.) -/
theorem C7_full_refresh (att : String → AttachResponse) (st : RunState) (i : Issue)
    (hdir : issue_target_path i ∈ st.fs.dirs)
    (hatt : ∀ a ∈ i.attachments, a.name ≠ "content.txt") :
    (processIssue att true st i).output =
      st.output ++ ["Processing " ++ issue_target_path i] ∧
    (processIssue att true st i).fs.dirs = st.fs.dirs ∧
    fileLookup (processIssue att true st i).fs
      (pathJoin (issue_target_path i) "content.txt") = some (renderContent i) := by
  rw [processIssue_not_skip att true st i (by simp)]
  rw [makedirs_of_mem hdir]
  refine ⟨rfl, ?_, ?_⟩
  · by_cases he : i.attachments.isEmpty
    · simp only [he, if_pos]
      rfl
    · simp only [he, Bool.false_eq_true, reduceIte]
      rw [dirs_download_attachments]
      rfl
  · by_cases he : i.attachments.isEmpty
    · simp only [he, if_pos]
      exact fileLookup_writeFile_self _ _ _
    · simp only [he, Bool.false_eq_true, reduceIte]
      rw [fileLookup_download_attachments_other att i.attachments _ _
          (fun a ha hq => hatt a ha (pathJoin_right_injective hq))]
      exact fileLookup_writeFile_self _ _ _

/-- Witness for C7: reprocessing `issueB` in `stB` (its folder exists)
rewrites `content.txt` and leaves the directory set unchanged. -/
theorem C7_witness :
    (processIssue attNone true stB issueB).output =
      stB.output ++ ["Processing " ++ issue_target_path issueB] ∧
    (processIssue attNone true stB issueB).fs.dirs = stB.fs.dirs ∧
    fileLookup (processIssue attNone true stB issueB).fs
      (pathJoin (issue_target_path issueB) "content.txt") =
      some (renderContent issueB) :=
  C7_full_refresh attNone stB issueB (by decide) (by decide)

/-- C6: the text after the heading and blank line of `content.txt` is the
issue's description when present and the literal `No description` when the
description is absent. -/
theorem C6_description_line :
    (∀ (i : Issue) (d : String),
      renderContent { i with description := some d } =
        ("# " ++ i.idReadable ++ " - " ++ i.summary ++ "\n\n") ++
        (d ++ "\n\n") ++ "\n# Comments" ++
        String.join (i.comments.map renderComment)) ∧
    (∀ i : Issue,
      renderContent { i with description := none } =
        ("# " ++ i.idReadable ++ " - " ++ i.summary ++ "\n\n") ++
        ("No description" ++ "\n\n") ++ "\n# Comments" ++
        String.join (i.comments.map renderComment)) :=
  ⟨fun _ _ => rfl, fun _ => rfl⟩

/-- C8: every comment's section title carries the ISO-8601 UTC
second-precision rendering of its epoch-millisecond creation time, and
epoch-millisecond 1700000000000 renders as `2023-11-14T22:13:20+00:00`. -/
theorem C8_comment_timestamp :
    (∀ c : Comment,
      renderComment c =
        "\n\n---\n---\n" ++
        ("Comment by " ++ c.authorName ++ " at " ++
          isoformatSecondsUtc (c.created / 1000)) ++ "\n" ++
        ("Deleted: " ++ pyBool c.deleted ++ "\n") ++
        "Reactions:\n" ++
        String.join (c.reactions.map renderReaction) ++
        ("\n" ++ c.text ++ "\n")) ∧
    comment_timestamp 1700000000000 = "2023-11-14T22:13:20+00:00" :=
  ⟨fun _ => rfl, by decide⟩
